import Mathlib

/-!
# Shallow embedding of `src/crates/rpc/rpc/src/debug.rs` (the `debug` RPC API)

This file embeds the replay kernel, tracer dispatch, speculative executor,
witness accumulator and the RPC handler wrappers of the debug tracing service,
and proves / refutes the frozen claims about them.

External collaborators (the EVM interpreter, state providers, signature
recovery, RLP block decoding, config parsing) are modelled as function
parameters or opaque `Nat` payloads; everything the source file itself does
(control flow, commit discipline, error mapping, dispatch) is embedded
faithfully.
-/

set_option autoImplicit false
set_option maxRecDepth 100000

deriving instance DecidableEq for Except

namespace RethDebug

/-- The `EthApiError` variants used by `debug.rs` (`reth_rpc_eth_types::EthApiError`). -/
inductive EthApiErrorM where
  | headerNotFound
  | transactionNotFound
  | invalidTransactionSignature
  | rlpDecodeRawBlock
  | invalidTracerConfig
  | invalidParams (msg : String)
  | unsupported (msg : String)
  | internal
  deriving Repr, DecidableEq

/-- `GethDebugBuiltInTracerType`: the closed family of built-in tracers. -/
inductive BuiltInTracerM where
  | fourByte
  | callTracer
  | preState
  | noop
  | mux
  | flatCall
  deriving Repr, DecidableEq

/-- `GethDebugTracerType`: either a built-in tracer or a scripted (JS) tracer. -/
inductive TracerTypeM where
  | builtIn (t : BuiltInTracerM)
  | js (code : String)
  deriving Repr, DecidableEq

/-- The opaque tracer-config bag (`tracer_config`).  Each `into_*_config`
accessor of the source either yields the tracer-specific view or fails; we
model the bag by the outcomes of those accessors (`none` = parse failure). -/
structure TracerConfigM where
  callConfig : Option Nat
  preStateConfig : Option Nat
  muxConfig : Option Nat
  flatCallConfig : Option Nat
  deriving Repr, DecidableEq

/-- `GethDebugTracingOptions { config, tracer, tracer_config, .. }`.
`config` (the structlog knobs) is opaque here. -/
structure TracingOptionsM where
  config : Nat
  tracer : Option TracerTypeM
  tracerConfig : TracerConfigM
  deriving Repr, DecidableEq

/-- `GethDebugTracingOptions::default()`: no tracer selected. -/
def defaultTracingOptions : TracingOptionsM :=
  { config := 0, tracer := none, tracerConfig := ⟨none, none, none, none⟩ }

/-- The fields of `revm::BlockEnv` that `debug.rs` manipulates (`number`,
`timestamp`, both `U256`); the remaining fields are opaque payload `rest`. -/
structure BlockEnvM where
  number : Nat
  timestamp : Nat
  rest : Nat
  deriving Repr, DecidableEq

/-- `CfgEnvWithHandlerCfg { cfg_env, handler_cfg }`, both opaque. -/
structure CfgM where
  cfgEnv : Nat
  handlerCfg : Nat
  deriving Repr, DecidableEq

/-- `EnvWithHandlerCfg { env: Env::boxed(cfg_env, block_env, tx_env), handler_cfg }`. -/
structure EnvM where
  cfgEnv : Nat
  handlerCfg : Nat
  blockEnv : BlockEnvM
  txEnv : Nat
  deriving Repr, DecidableEq

/-- `Env::boxed(cfg.cfg_env.clone(), block_env.clone(), tx_env)` wrapped with
`cfg.handler_cfg` — the per-transaction environment assembly of `debug.rs`. -/
def mkEnvWithHandlerCfg (cfg : CfgM) (blockEnv : BlockEnvM) (txEnv : Nat) : EnvM :=
  ⟨cfg.cfgEnv, cfg.handlerCfg, blockEnv, txEnv⟩

/-- `revm_inspectors::tracing::TransactionContext`. -/
structure TxContextM where
  blockHash : Option Nat
  txHash : Option Nat
  txIndex : Option Nat
  deriving Repr, DecidableEq

/-- The cache overlay (`CacheDB` / `StateCacheDb`): an account map keyed by
address, account contents of type `α` (opaque to this file). -/
abbrev DBM (α : Type) : Type := List (Nat × α)

/-- `revm_primitives::EvmState`: the state delta returned by one execution. -/
abbrev EvmStateM (α : Type) : Type := List (Nat × α)

/-- One map update of `DatabaseCommit::commit` (last write wins). -/
def dbInsert {α : Type} (db : DBM α) (key : Nat) (v : α) : DBM α :=
  (key, v) :: db.filter (fun p => p.1 ≠ key)

/-- `db.commit(state_changes)`: fold every account of the delta into the cache
overlay.  Committing an empty delta leaves the overlay unchanged. -/
def dbCommit {α : Type} (db : DBM α) (changes : EvmStateM α) : DBM α :=
  changes.foldl (fun d p => dbInsert d p.1 p.2) db

/-- Result of `Eth::inspect(db, env, inspector)`: the state delta (`res.state`)
plus an opaque observation (`res.result`, gas, output, inspector contents). -/
structure InspectResM (α : Type) where
  state : EvmStateM α
  obs : Nat

/-- `GethTrace`: the tracer-specific public frame.  The frame payloads are
opaque observations produced by the (external) output shaping. -/
inductive GethTraceM where
  | fourByteFrame (d : Nat)
  | callFrame (d : Nat)
  | preStateFrame (d : Nat)
  | noopFrame
  | muxFrame (d : Nat)
  | structLog (d : Nat)
  deriving Repr, DecidableEq

/-- `DebugApi::trace_transaction` (debug.rs lines 716-831): dispatch on the
selected tracer, execute under the corresponding inspector, and return the
frame together with the state delta of the execution.

* The EVM run `self.eth_api().inspect(db, env, inspector)` is the parameter
  `inspect` (external collaborator).
* Config-parsing failures (`into_call_config` etc.) yield `InvalidTracerConfig`.
* The `NoopTracer` arm returns `(NoopFrame::default(), Default::default())`
  without running the EVM at all.
* The `FlatCallTracer` arm returns
  `Unsupported("Flatcall tracer is not supported yet")`.
* Without the `js-tracer` feature, `JsTracer` returns
  `Unsupported("JS Tracer is not enabled")`; the transaction context parameter
  is unused (it is named `_transaction_context` in the source). -/
def trace_transaction {α : Type} (inspect : DBM α → EnvM → InspectResM α)
    (opts : TracingOptionsM) (env : EnvM) (db : DBM α)
    (_transactionContext : Option TxContextM) :
    Except EthApiErrorM (GethTraceM × EvmStateM α) :=
  match opts.tracer with
  | some (.builtIn .fourByte) =>
    let r := inspect db env
    .ok (.fourByteFrame r.obs, r.state)
  | some (.builtIn .callTracer) =>
    match opts.tracerConfig.callConfig with
    | none => .error .invalidTracerConfig
    | some _ =>
      let r := inspect db env
      .ok (.callFrame r.obs, r.state)
  | some (.builtIn .preState) =>
    match opts.tracerConfig.preStateConfig with
    | none => .error .invalidTracerConfig
    | some _ =>
      let r := inspect db env
      .ok (.preStateFrame r.obs, r.state)
  | some (.builtIn .noop) => .ok (.noopFrame, [])
  | some (.builtIn .mux) =>
    match opts.tracerConfig.muxConfig with
    | none => .error .invalidTracerConfig
    | some _ =>
      let r := inspect db env
      .ok (.muxFrame r.obs, r.state)
  | some (.builtIn .flatCall) =>
    .error (.unsupported "Flatcall tracer is not supported yet")
  | some (.js _) => .error (.unsupported "JS Tracer is not enabled")
  | none =>
    let r := inspect db env
    .ok (.structLog r.obs, r.state)

/-- `TransactionSignedEcRecovered`: a transaction with its signer resolved.
`hash` is `tx.hash`; the remaining contents are the opaque `payload`. -/
structure RecoveredTxM where
  hash : Nat
  payload : Nat
  deriving Repr, DecidableEq

/-- `TraceResult::Success { result, tx_hash }` as pushed by `trace_block`
(the loop only ever pushes `Success`; errors abort the whole call). -/
structure TraceResultM where
  result : GethTraceM
  txHash : Option Nat
  deriving Repr, DecidableEq

/-- One iteration of the `trace_block` replay loop, with two observation
fields recording what the loop did: `seenDb` is the cache overlay passed to
`trace_transaction` for this transaction, and `committed` records whether
`db.commit(state_changes)` ran afterwards (`transactions.peek().is_some()`). -/
structure ReplayStepM (α : Type) where
  seenDb : DBM α
  committed : Bool
  traceResult : TraceResultM
  deriving Repr, DecidableEq

/-- `BlockId`: by hash, by number, or a symbolic tag (only the tags the
embedded code distinguishes are modelled). -/
inductive BlockIdM where
  | hash (h : Nat)
  | number (n : Nat)
  | latest
  | pending
  deriving Repr, DecidableEq

/-- `BlockId::as_block_hash`. -/
def BlockIdM.asBlockHash : BlockIdM → Option Nat
  | .hash h => some h
  | _ => none

/-- `BlockId::is_pending`. -/
def BlockIdM.isPending : BlockIdM → Bool
  | .pending => true
  | _ => false

/-- The replay loop of `DebugApi::trace_block` (debug.rs lines 105-138):
`while let Some((index, tx)) = transactions.next()` — build the environment,
trace the transaction on the current overlay, record the result, and commit
the delta iff another transaction follows (`transactions.peek().is_some()`).
`txEnvOf` is the external `Call::evm_config(..).tx_env(&tx)`. -/
def trace_block_go {α : Type} (inspect : DBM α → EnvM → InspectResM α)
    (txEnvOf : RecoveredTxM → Nat) (opts : TracingOptionsM) (cfg : CfgM)
    (blockEnv : BlockEnvM) (blockHash : Option Nat) :
    Nat → DBM α → List RecoveredTxM →
    Except EthApiErrorM (List (ReplayStepM α))
  | _, _, [] => .ok []
  | index, db, tx :: rest =>
    let env := mkEnvWithHandlerCfg cfg blockEnv (txEnvOf tx)
    match trace_transaction inspect opts env db
        (some ⟨blockHash, some tx.hash, some index⟩) with
    | .error e => .error e
    | .ok (result, stateChanges) =>
      let doCommit := !rest.isEmpty
      let db' := if doCommit then dbCommit db stateChanges else db
      match trace_block_go inspect txEnvOf opts cfg blockEnv blockHash
          (index + 1) db' rest with
      | .error e => .error e
      | .ok steps => .ok (⟨db, doCommit, ⟨result, some tx.hash⟩⟩ :: steps)

/-- Output of `trace_block` with the observation whether a parent-state view
was acquired (`spawn_with_state_at_block` dispatched the worker closure). -/
structure TraceBlockOutM (α : Type) where
  stateAcquired : Bool
  outcome : Except EthApiErrorM (List (ReplayStepM α))
  deriving Repr, DecidableEq

/-- `DebugApi::trace_block` (debug.rs lines 87-141).  An empty transaction
list returns `Ok(Vec::new())` before any state view is acquired; otherwise
the worker closure builds `CacheDB::new(StateProviderDatabase::new(state))`
(the parameter `stateFor at`) and runs the replay loop. -/
def trace_block {α : Type} (inspect : DBM α → EnvM → InspectResM α)
    (txEnvOf : RecoveredTxM → Nat) (stateFor : BlockIdM → DBM α)
    (at_ : BlockIdM) (transactions : List RecoveredTxM) (cfg : CfgM)
    (blockEnv : BlockEnvM) (opts : TracingOptionsM) : TraceBlockOutM α :=
  if transactions.isEmpty then ⟨false, .ok []⟩
  else
    ⟨true, trace_block_go inspect txEnvOf opts cfg blockEnv at_.asBlockHash
      0 (stateFor at_) transactions⟩

/-- Reference semantics for claim C1: the state reached by sequentially
applying (executing and committing) a list of transactions, starting from
`db`, with the same per-transaction environment assembly as `trace_block`. -/
def seq_replay_state {α : Type} (inspect : DBM α → EnvM → InspectResM α)
    (txEnvOf : RecoveredTxM → Nat) (opts : TracingOptionsM) (cfg : CfgM)
    (blockEnv : BlockEnvM) (blockHash : Option Nat) :
    Nat → DBM α → List RecoveredTxM → DBM α
  | _, db, [] => db
  | index, db, tx :: rest =>
    let env := mkEnvWithHandlerCfg cfg blockEnv (txEnvOf tx)
    match trace_transaction inspect opts env db
        (some ⟨blockHash, some tx.hash, some index⟩) with
    | .error _ => db
    | .ok (_, stateChanges) =>
      seq_replay_state inspect txEnvOf opts cfg blockEnv blockHash
        (index + 1) (dbCommit db stateChanges) rest

/-- The unrecovered `TransactionSigned` found in a decoded raw block body. -/
structure SignedTxM where
  hash : Nat
  payload : Nat
  deriving Repr, DecidableEq

/-- A decoded raw block (`reth_primitives::Block`), restricted to the fields
`debug_trace_raw_block` reads: `number`, `parent_hash` and `body`. -/
structure RawBlockM where
  number : Nat
  parentHash : Nat
  body : List SignedTxM
  deriving Repr, DecidableEq

/-- `block.body.into_iter().map(|tx| recover(tx).ok_or(InvalidTransactionSignature))
.collect::<Result<Vec<_>, _>>()`: recover every transaction, short-circuiting
to `InvalidTransactionSignature` at the first failure. -/
def recoverAll (recover : SignedTxM → Option RecoveredTxM) :
    List SignedTxM → Except EthApiErrorM (List RecoveredTxM)
  | [] => .ok []
  | tx :: rest =>
    match recover tx with
    | none => .error .invalidTransactionSignature
    | some r => (recoverAll recover rest).map (r :: ·)

/-- `DebugApi::debug_trace_raw_block` (debug.rs lines 148-186): decode the RLP
block (`decodeBlock`, external; failure is `RlpDecodeRawBlock`), build the env
from the header (`envForRaw`, external), recover signers — with the strict
rule `into_ecrecovered` when Homestead is active at the block number, with the
relaxed `into_ecrecovered_unchecked` otherwise — and replay on top of the
parent block's state. -/
def debug_trace_raw_block {α : Type} (decodeBlock : List Nat → Option RawBlockM)
    (envForRaw : RawBlockM → CfgM × BlockEnvM)
    (isHomesteadActiveAtBlock : Nat → Bool)
    (intoEcrecovered intoEcrecoveredUnchecked : SignedTxM → Option RecoveredTxM)
    (inspect : DBM α → EnvM → InspectResM α) (txEnvOf : RecoveredTxM → Nat)
    (stateFor : BlockIdM → DBM α) (rlpBlock : List Nat)
    (opts : TracingOptionsM) : Except EthApiErrorM (TraceBlockOutM α) :=
  match decodeBlock rlpBlock with
  | none => .error .rlpDecodeRawBlock
  | some block =>
    let cfg := (envForRaw block).1
    let blockEnv := (envForRaw block).2
    let parent := block.parentHash
    match (if isHomesteadActiveAtBlock block.number then
             recoverAll intoEcrecovered block.body
           else
             recoverAll intoEcrecoveredUnchecked block.body) with
    | .error e => .error e
    | .ok transactions =>
      .ok (trace_block inspect txEnvOf stateFor (.hash parent) transactions
        cfg blockEnv opts)

/-- `tokio::sync::AcquireError`: the admission semaphore was closed. -/
inductive AcquireErrorM where
  | closed
  deriving Repr, DecidableEq

/-- The `DebugApiServer::debug_trace_block` handler (debug.rs lines 930-939):
`let _permit = self.acquire_trace_permit().await;` binds the permit `Result`
without inspecting it — an `Err` from a torn-down gate is silently dropped —
and then the raw-block trace runs unconditionally. -/
def debug_trace_block_rpc {α : Type} (decodeBlock : List Nat → Option RawBlockM)
    (envForRaw : RawBlockM → CfgM × BlockEnvM)
    (isHomesteadActiveAtBlock : Nat → Bool)
    (intoEcrecovered intoEcrecoveredUnchecked : SignedTxM → Option RecoveredTxM)
    (inspect : DBM α → EnvM → InspectResM α) (txEnvOf : RecoveredTxM → Nat)
    (stateFor : BlockIdM → DBM α)
    (permit : Except AcquireErrorM Unit) (rlpBlock : List Nat)
    (opts : Option TracingOptionsM) : Except EthApiErrorM (TraceBlockOutM α) :=
  let _permit := permit
  debug_trace_raw_block decodeBlock envForRaw isHomesteadActiveAtBlock
    intoEcrecovered intoEcrecoveredUnchecked inspect txEnvOf stateFor rlpBlock
    (opts.getD defaultTracingOptions)

/-- `TransactionRequest`: a synthetic call of a bundle, opaque here. -/
structure CallReqM where
  data : Nat
  deriving Repr, DecidableEq

/-- `Bundle { transactions, block_override }` (block overrides opaque). -/
structure BundleM where
  transactions : List CallReqM
  blockOverride : Option Nat
  deriving Repr, DecidableEq

/-- `StateContext { transaction_index, block_number }`.  A `transaction_index`
of `none` means "all transactions" (`TransactionIndex::default().index() = None`). -/
structure StateContextM where
  transactionIndex : Option Nat
  blockNumber : Option BlockIdM
  deriving Repr, DecidableEq

/-- `StateContext::default()`. -/
def defaultStateContext : StateContextM := ⟨none, none⟩

/-- `GethDebugTracingCallOptions { tracing_options, state_overrides, block_overrides }`
(both override bags opaque). -/
structure CallOptsM where
  tracingOptions : TracingOptionsM
  stateOverrides : Option Nat
  blockOverrides : Option Nat
  deriving Repr, DecidableEq

/-- `GethDebugTracingCallOptions::default()`. -/
def defaultCallOpts : CallOptsM := ⟨defaultTracingOptions, none, none⟩

/-- `U256` arithmetic is modular (the bundle loop increments `block_env.number`
and `block_env.timestamp` with wrapping 256-bit addition). -/
def U256MOD : Nat := 2 ^ 256

/-- A block loaded with senders (`block_with_senders`), restricted to the
fields `debug_trace_call_many` reads. -/
structure BlockM where
  hash : Nat
  parentHash : Nat
  body : List RecoveredTxM
  deriving Repr, DecidableEq

/-- One call of `prepare_call_env` + `trace_transaction` in the bundle loop of
`debug_trace_call_many`, recorded for observation: which bundle and position
the transaction had, which state/block overrides were passed to
`prepare_call_env`, and the `block_env` argument it received. -/
structure ExecRecordM (α : Type) where
  bundleIdx : Nat
  txIdx : Nat
  stateOverridesArg : Option Nat
  blockOverridesArg : Option Nat
  blockEnvArg : BlockEnvM
  deriving Repr, DecidableEq

/-- The inner transaction loop of one bundle (debug.rs lines 559-583):
`let state_overrides = state_overrides.take();` hands the current contents of
the (mutable, closure-wide) override slot to this transaction and leaves
`None` behind; `prepare_call_env` (external) composes the overrides and
yields the environment (possibly mutating the overlay); the delta is
committed iff more transactions remain in this bundle or more bundles follow.
Returns the final contents of the override slot, the overlay, the execution
records and the collected traces. -/
def run_bundle_txs {α : Type}
    (prepareCallEnv : CfgM → BlockEnvM → CallReqM → Nat → DBM α →
      Option Nat × Option Nat → Except EthApiErrorM (EnvM × DBM α))
    (inspect : DBM α → EnvM → InspectResM α) (tracingOptions : TracingOptionsM)
    (cfg : CfgM) (gasLimit : Nat) (blockEnv : BlockEnvM)
    (blockOverrides : Option Nat) (bundleIdx : Nat) (moreBundles : Bool) :
    Nat → Option Nat → DBM α → List CallReqM →
    Except EthApiErrorM (Option Nat × DBM α × List (ExecRecordM α) × List GethTraceM)
  | _, stateOverridesSlot, db, [] => .ok (stateOverridesSlot, db, [], [])
  | txIdx, stateOverridesSlot, db, tx :: rest =>
    let stateOverrides := stateOverridesSlot
    match prepareCallEnv cfg blockEnv tx gasLimit db
        (stateOverrides, blockOverrides) with
    | .error e => .error e
    | .ok (env, db1) =>
      match trace_transaction inspect tracingOptions env db1 none with
      | .error e => .error e
      | .ok (trace, state) =>
        let db2 := if !rest.isEmpty || moreBundles then dbCommit db1 state else db1
        match run_bundle_txs prepareCallEnv inspect tracingOptions cfg gasLimit
            blockEnv blockOverrides bundleIdx moreBundles
            (txIdx + 1) none db2 rest with
        | .error e => .error e
        | .ok (slotOut, dbOut, recs, traces) =>
          .ok (slotOut, dbOut,
            ⟨bundleIdx, txIdx, stateOverrides, blockOverrides, blockEnv⟩ :: recs,
            trace :: traces)

/-- The outer bundle loop of `debug_trace_call_many` (debug.rs lines 552-589):
trace each bundle's transactions, then advance `block_env.number` by 1 and
`block_env.timestamp` by 12 (wrapping `U256` addition) for the next bundle. -/
def run_bundles {α : Type}
    (prepareCallEnv : CfgM → BlockEnvM → CallReqM → Nat → DBM α →
      Option Nat × Option Nat → Except EthApiErrorM (EnvM × DBM α))
    (inspect : DBM α → EnvM → InspectResM α) (tracingOptions : TracingOptionsM)
    (cfg : CfgM) (gasLimit : Nat) :
    Nat → BlockEnvM → Option Nat → DBM α → List BundleM →
    Except EthApiErrorM (List (ExecRecordM α) × List (List GethTraceM))
  | _, _, _, _, [] => .ok ([], [])
  | bundleIdx, blockEnv, stateOverridesSlot, db, bundle :: rest =>
    let blockOverrides := bundle.blockOverride
    match run_bundle_txs prepareCallEnv inspect tracingOptions cfg gasLimit
        blockEnv blockOverrides bundleIdx (!rest.isEmpty)
        0 stateOverridesSlot db bundle.transactions with
    | .error e => .error e
    | .ok (slotOut, dbOut, recs, traces) =>
      let blockEnv' : BlockEnvM :=
        ⟨(blockEnv.number + 1) % U256MOD, (blockEnv.timestamp + 12) % U256MOD,
          blockEnv.rest⟩
      match run_bundles prepareCallEnv inspect tracingOptions cfg gasLimit
          (bundleIdx + 1) blockEnv' slotOut dbOut rest with
      | .error e => .error e
      | .ok (recs', traces') => .ok (recs ++ recs', traces :: traces')

/-- The replay of the first `n` block transactions that precedes the bundles
(debug.rs lines 531-549): `transact` then `db.commit(res.state)` for each. -/
def replay_block_txs_until {α : Type}
    (transact : DBM α → EnvM → Except EthApiErrorM (EvmStateM α))
    (txEnvOf : RecoveredTxM → Nat) (cfg : CfgM) (blockEnv : BlockEnvM) :
    DBM α → List RecoveredTxM → Except EthApiErrorM (DBM α)
  | db, [] => .ok db
  | db, tx :: rest =>
    let env := mkEnvWithHandlerCfg cfg blockEnv (txEnvOf tx)
    match transact db env with
    | .error e => .error e
    | .ok state =>
      replay_block_txs_until transact txEnvOf cfg blockEnv (dbCommit db state) rest

/-- The external capabilities consumed by `debug_trace_call_many`. -/
structure CallManyDepsM (α : Type) where
  evmEnvAt : BlockIdM → Option (CfgM × BlockEnvM)
  blockWithSenders : BlockIdM → Option BlockM
  callGasLimit : Nat
  stateFor : BlockIdM → DBM α
  prepareCallEnv : CfgM → BlockEnvM → CallReqM → Nat → DBM α →
    Option Nat × Option Nat → Except EthApiErrorM (EnvM × DBM α)
  inspect : DBM α → EnvM → InspectResM α
  txEnvOf : RecoveredTxM → Nat
  transact : DBM α → EnvM → Except EthApiErrorM (EvmStateM α)

/-- Output of `debug_trace_call_many`, with an observation whether block/env
resolution was even attempted (for the empty-bundles early return), and the
execution records of the bundle loop alongside the traces. -/
structure CallManyOutM (α : Type) where
  resolvedBlock : Bool
  result : Except EthApiErrorM (List (ExecRecordM α) × List (List GethTraceM))
  deriving Repr, DecidableEq

/-- `DebugApi::debug_trace_call_many` (debug.rs lines 483-593).  Empty
`bundles` fail with `InvalidParams("bundles are empty.")` before any block
resolution; otherwise the target block is resolved (failure ⇒
`HeaderNotFound`), the base state is the parent state with the first
`num_txs` transactions replayed — or the post-block state directly when all
transactions are to be replayed and the target is not pending — and the
bundle loop runs on top. -/
def debug_trace_call_many {α : Type} (deps : CallManyDepsM α)
    (bundles : List BundleM) (stateContext : Option StateContextM)
    (opts : Option CallOptsM) : CallManyOutM α :=
  if bundles.isEmpty then
    ⟨false, .error (.invalidParams "bundles are empty.")⟩
  else
    let sc := stateContext.getD defaultStateContext
    let transactionIndex := sc.transactionIndex
    let targetBlock := sc.blockNumber.getD .latest
    match deps.evmEnvAt targetBlock, deps.blockWithSenders targetBlock with
    | some (cfg, blockEnv), some block =>
      let opts' := opts.getD defaultCallOpts
      let tracingOptions := opts'.tracingOptions
      let stateOverrides := opts'.stateOverrides
      let gasLimit := deps.callGasLimit
      let numTxs := transactionIndex.getD block.body.length
      let usePostBlockState :=
        !targetBlock.isPending && numTxs == block.body.length
      let at_ : BlockIdM :=
        if usePostBlockState then .hash block.hash else .hash block.parentHash
      let db0 := deps.stateFor at_
      let prefixReplay :=
        if usePostBlockState then .ok db0
        else
          replay_block_txs_until deps.transact deps.txEnvOf cfg blockEnv db0
            (block.body.take numTxs)
      match prefixReplay with
      | .error e => ⟨true, .error e⟩
      | .ok db1 =>
        ⟨true, run_bundles deps.prepareCallEnv deps.inspect tracingOptions cfg
          gasLimit 0 blockEnv stateOverrides db1 bundles⟩
    | _, _ => ⟨true, .error .headerNotFound⟩

/-! ### keccak256 (`revm_primitives::keccak256`), executable

Ethereum's `keccak256` is Keccak-f[1600] with rate 136 and the original
Keccak padding (`0x01 … 0x80`).  Lanes are 64-bit words modelled as `Nat`
values below `2 ^ 64`; byte strings are `List Nat` with one byte per entry. -/

/-- `2 ^ 64`, the lane modulus. -/
def U64MOD : Nat := 2 ^ 64

/-- 64-bit rotate left. -/
def rotl64 (x n : Nat) : Nat := ((x <<< n) % U64MOD) ||| (x >>> (64 - n))

/-- 64-bit bitwise complement. -/
def not64 (x : Nat) : Nat := x ^^^ (U64MOD - 1)

/-- Lane read from the 25-lane state (index `x + 5 * y`). -/
def lget (s : List Nat) (i : Nat) : Nat := s.getD i 0

/-- Keccak θ step. -/
def keccakTheta (s : List Nat) : List Nat :=
  let c := (List.range 5).map fun x =>
    (lget s x) ^^^ (lget s (x + 5)) ^^^ (lget s (x + 10)) ^^^
      (lget s (x + 15)) ^^^ (lget s (x + 20))
  let d := (List.range 5).map fun x =>
    (lget c ((x + 4) % 5)) ^^^ rotl64 (lget c ((x + 1) % 5)) 1
  (List.range 25).map fun i => (lget s i) ^^^ (lget d (i % 5))

/-- The ρ rotation schedule as `(lane position, offset)` pairs: starting from
lane (1, 0), step `t` rotates the current lane by the triangular number
`(t+1)(t+2)/2 mod 64` and moves to `(y, (2x+3y) mod 5)`. -/
def rhoPairs : List (Nat × Nat) :=
  ((List.range 24).foldl
    (fun (acc : (Nat × Nat) × List (Nat × Nat)) t =>
      let x := acc.1.1
      let y := acc.1.2
      ((y, (2 * x + 3 * y) % 5),
        (x + 5 * y, (t + 1) * (t + 2) / 2 % 64) :: acc.2))
    ((1, 0), [])).2

/-- The ρ rotation offsets, indexed by `x + 5 * y` (lane (0, 0) is fixed). -/
def rhoOffsets : List Nat :=
  (List.range 25).map fun i =>
    (((rhoPairs.find? (fun p => p.1 = i)).map (·.2)).getD 0)

/-- Keccak ρ and π steps combined: `A'[x, y] = rotl(A[(x + 3y) % 5, x], r)`. -/
def keccakRhoPi (s : List Nat) : List Nat :=
  (List.range 25).map fun i =>
    let x := i % 5
    let y := i / 5
    let src := (x + 3 * y) % 5 + 5 * x
    rotl64 (lget s src) (lget rhoOffsets src)

/-- Keccak χ step. -/
def keccakChi (s : List Nat) : List Nat :=
  (List.range 25).map fun i =>
    let x := i % 5
    let y := i / 5
    (lget s i) ^^^ (not64 (lget s ((x + 1) % 5 + 5 * y)) &&& lget s ((x + 2) % 5 + 5 * y))

/-- Keccak ι step: xor the round constant into lane (0, 0). -/
def keccakIota (rc : Nat) (s : List Nat) : List Nat :=
  ((lget s 0) ^^^ rc) :: s.tail

/-- One step of the degree-8 LFSR (polynomial `x^8 + x^6 + x^5 + x^4 + 1`)
generating the ι round-constant bits: returns the output bit and the next
register value. -/
def lfsr86540 (r : Nat) : Bool × Nat :=
  (r &&& 1 = 1,
    if r &&& 0x80 ≠ 0 then ((r <<< 1) ^^^ 0x71) &&& 0xFF
    else (r <<< 1) &&& 0xFF)

/-- The 24 Keccak round constants, generated by the LFSR: in round `i`, bit
`2^j - 1` of the constant is the `(7i+j)`-th LFSR output bit. -/
def keccakRC : List Nat :=
  ((List.range 24).foldl
    (fun (acc : List Nat × Nat) _ =>
      let stepped := (List.range 7).foldl
        (fun (st : Nat × Nat) j =>
          let b := lfsr86540 st.2
          (if b.1 then st.1 ^^^ (1 <<< ((1 <<< j) - 1)) else st.1, b.2))
        (0, acc.2)
      (acc.1 ++ [stepped.1], stepped.2))
    (([] : List Nat), 1)).1

/-- Keccak-f[1600]. -/
def keccakF (s : List Nat) : List Nat :=
  keccakRC.foldl (fun st rc => keccakIota rc (keccakChi (keccakRhoPi (keccakTheta st)))) s

/-- A little-endian 8-byte chunk as one 64-bit lane. -/
def laneOfBytes (bs : List Nat) : Nat := bs.foldr (fun b acc => b + 256 * acc) 0

/-- Xor a 136-byte rate block into the first 17 lanes of the state. -/
def xorBlock (s : List Nat) (block : List Nat) : List Nat :=
  (List.range 25).map fun j =>
    if j < 17 then (lget s j) ^^^ laneOfBytes ((block.drop (8 * j)).take 8)
    else lget s j

/-- Keccak `pad10*1` with domain byte `0x01` to a multiple of 136 bytes. -/
def keccakPad (msg : List Nat) : List Nat :=
  let q := 136 - msg.length % 136
  if q = 1 then msg ++ [0x81]
  else msg ++ 0x01 :: List.replicate (q - 2) 0 ++ [0x80]

/-- Absorb all rate blocks of the padded message. -/
def keccakAbsorb (padded : List Nat) : List Nat :=
  (List.range (padded.length / 136)).foldl
    (fun st i => keccakF (xorBlock st ((padded.drop (136 * i)).take 136)))
    (List.replicate 25 0)

/-- `keccak256`: the first 32 bytes (4 lanes, little-endian) of the final state. -/
def keccak256 (msg : List Nat) : List Nat :=
  let s := keccakAbsorb (keccakPad msg)
  (List.range 32).map fun i => (lget s (i / 8)) >>> (8 * (i % 8)) % 256

/-! ### Witness accumulator (`debug_execution_witness`) -/

/-- `alloy_rlp::encode` of a fixed byte string of length 2..55 (used at
lengths 20 — `Address` — and 32 — `B256`): a one-byte header `0x80 + len`
followed by the bytes. -/
def rlpBytes (bs : List Nat) : List Nat := (0x80 + bs.length) :: bs

/-- The 32 big-endian bytes of a `U256` value (`B256::from(slot)`). -/
def be32 (n : Nat) : List Nat :=
  (List.range 32).map fun i => n / 256 ^ (31 - i) % 256

/-- A revm cache `PlainAccount`: account info (opaque) plus its storage map. -/
structure PlainAccountM where
  info : Nat
  storage : List (Nat × Nat)
  deriving Repr, DecidableEq

/-- A revm cache `DbAccount`: `account` (`None` = not existing) and the
destruction flag read via `account.status.was_destroyed()`. -/
structure DbAccountM where
  account : Option PlainAccountM
  wasDestroyed : Bool
  deriving Repr, DecidableEq

/-- A map insert (`HashMap::insert` / `B256Map::insert`): last write wins. -/
def mapInsertB (m : List (List Nat × List Nat)) (k v : List Nat) :
    List (List Nat × List Nat) :=
  (k, v) :: m.filter (fun p => p.1 ≠ k)

/-- `reth_trie::HashedStorage`: the wipe flag and the hashed-slot map. -/
structure HashedStorageM where
  wipe : Bool
  storage : List (List Nat × Nat)
  deriving Repr, DecidableEq

/-- `reth_trie::HashedPostState`: hashed accounts and hashed storages. -/
structure HashedPostStateM where
  accounts : List (List Nat × Option Nat)
  storages : List (List Nat × HashedStorageM)
  deriving Repr, DecidableEq

/-- The storage sub-loop of the witness accumulator (debug.rs lines 686-694):
for each `(slot, value)` hash `B256::from(slot)`, record the hashed slot in
the storage map, and if preimages were requested record
`hashed_slot → RLP(slot)`. -/
def witness_scan_storage (includePreimages : Bool) :
    HashedStorageM × List (List Nat × List Nat) → List (Nat × Nat) →
    HashedStorageM × List (List Nat × List Nat)
  | acc, [] => acc
  | (hsto, pre), (slot, value) :: rest =>
    let slotB := be32 slot
    let hashedSlot := keccak256 slotB
    let hsto' : HashedStorageM :=
      ⟨hsto.wipe, (hashedSlot, value) :: hsto.storage.filter (fun p => p.1 ≠ hashedSlot)⟩
    let pre' := if includePreimages then mapInsertB pre hashedSlot (rlpBytes slotB) else pre
    witness_scan_storage includePreimages (hsto', pre') rest

/-- The account loop of the witness accumulator (debug.rs lines 667-696):
for each `(address, account)` of the cache, hash the raw 20-byte address,
record the account in the hashed state, fetch-or-create the storage entry
with the destruction flag, and — when the account exists and preimages were
requested — record `hashed_address → RLP(address)`; then scan its storage. -/
def witness_scan_accounts (includePreimages : Bool) :
    HashedPostStateM → List (List Nat × List Nat) →
    List (List Nat × DbAccountM) →
    HashedPostStateM × List (List Nat × List Nat)
  | hs, pre, [] => (hs, pre)
  | hs, pre, (address, dbAccount) :: rest =>
    let hashedAddress := keccak256 address
    let accounts' :=
      (hashedAddress, dbAccount.account.map (·.info)) ::
        hs.accounts.filter (fun p => p.1 ≠ hashedAddress)
    let storageEntry : HashedStorageM :=
      ((hs.storages.find? (fun p => p.1 = hashedAddress)).map (·.2)).getD
        ⟨dbAccount.wasDestroyed, []⟩
    match dbAccount.account with
    | none =>
      let hs' : HashedPostStateM :=
        ⟨accounts',
          (hashedAddress, storageEntry) ::
            hs.storages.filter (fun p => p.1 ≠ hashedAddress)⟩
      witness_scan_accounts includePreimages hs' pre rest
    | some plain =>
      let pre1 :=
        if includePreimages then mapInsertB pre hashedAddress (rlpBytes address)
        else pre
      let scanned :=
        witness_scan_storage includePreimages (storageEntry, pre1) plain.storage
      let hs' : HashedPostStateM :=
        ⟨accounts',
          (hashedAddress, scanned.1) ::
            hs.storages.filter (fun p => p.1 ≠ hashedAddress)⟩
      witness_scan_accounts includePreimages hs' scanned.2 rest

/-- `ExecutionWitness { state, keys }`: the witness bytes (opaque) and the
optional preimage map. -/
structure ExecutionWitnessM where
  state : Nat
  keys : Option (List (List Nat × List Nat))
  deriving Repr, DecidableEq

/-- The tail of `DebugApi::debug_execution_witness` (debug.rs lines 659-704):
starting from the cache accounts accumulated by re-executing the block (the
execution itself — lines 604-657 — is external and enters through
`cacheAccounts`), walk the cache into a hashed post-state and a preimage map,
ask the provider for a witness over the hashed state (`witnessOf`, external),
and return it with `keys: include_preimages.then_some(state_preimages)`. -/
def debug_execution_witness (witnessOf : HashedPostStateM → Nat)
    (cacheAccounts : List (List Nat × DbAccountM))
    (includePreimages : Bool) : ExecutionWitnessM :=
  let scanned := witness_scan_accounts includePreimages ⟨[], []⟩ [] cacheAccounts
  ⟨witnessOf scanned.1,
    if includePreimages then some scanned.2 else none⟩

/-! ### Concrete instances used by witnesses and counterexamples -/

/-- A concrete EVM execution: every run touches account 1 with value 5. -/
def inspectW : DBM Nat → EnvM → InspectResM Nat := fun _ _ => ⟨[(1, 5)], 9⟩

/-- A concrete `tx_env` assembly. -/
def txEnvW : RecoveredTxM → Nat := fun tx => tx.payload

/-- A concrete parent-state view: empty overlay at every block. -/
def stateForW : BlockIdM → DBM Nat := fun _ => []

/-- A concrete chain configuration. -/
def cfgW : CfgM := ⟨0, 0⟩

/-- A concrete block environment. -/
def beW : BlockEnvM := ⟨100, 1000, 0⟩

/-- Two concrete recovered transactions. -/
def txsW : List RecoveredTxM := [⟨10, 0⟩, ⟨11, 0⟩]

/-- The replay steps `trace_block` produces on `txsW` under `inspectW` with
the default (structlog) tracer. -/
def stepsW : List (ReplayStepM Nat) :=
  [⟨[], true, ⟨.structLog 9, some 10⟩⟩,
   ⟨[(1, 5)], false, ⟨.structLog 9, some 11⟩⟩]

/-- A concrete decoded raw block with one transaction. -/
def blockW : RawBlockM := ⟨5, 77, [⟨21, 1⟩]⟩

/-- A concrete RLP block decoder (always yields `blockW`). -/
def decodeW : List Nat → Option RawBlockM := fun _ => some blockW

/-- A concrete RLP block decoder yielding a block with no transactions. -/
def decodeEmptyW : List Nat → Option RawBlockM := fun _ => some ⟨1, 9, []⟩

/-- A concrete raw-header environment builder. -/
def envForRawW : RawBlockM → CfgM × BlockEnvM := fun _ => (cfgW, beW)

/-- A concrete hardfork schedule: Homestead active everywhere. -/
def homesteadW : Nat → Bool := fun _ => true

/-- A concrete strict (`into_ecrecovered`) recovery that always succeeds. -/
def strictW : SignedTxM → Option RecoveredTxM := fun tx => some ⟨tx.hash, tx.payload⟩

/-- A concrete relaxed (`into_ecrecovered_unchecked`) recovery. -/
def uncheckedW : SignedTxM → Option RecoveredTxM :=
  fun tx => some ⟨tx.hash, tx.payload + 1⟩

/-- Concrete capabilities for `debug_trace_call_many`: the target block
resolves to an empty block, calls touch account 1 with value 5. -/
def depsW : CallManyDepsM Nat where
  evmEnvAt := fun _ => some (cfgW, beW)
  blockWithSenders := fun _ => some ⟨7, 6, []⟩
  callGasLimit := 30
  stateFor := stateForW
  prepareCallEnv := fun cfg blockEnv _ _ db _ =>
    .ok (⟨cfg.cfgEnv, cfg.handlerCfg, blockEnv, 0⟩, db)
  inspect := inspectW
  txEnvOf := txEnvW
  transact := fun _ _ => .ok []

/-- Concrete call options: FourByte tracer, state overrides `some 42`. -/
def optsCx : CallOptsM :=
  ⟨⟨0, some (.builtIn .fourByte), ⟨none, none, none, none⟩⟩, some 42, none⟩

/-- Two concrete bundles of one call each. -/
def bundles2W : List BundleM := [⟨[⟨0⟩], none⟩, ⟨[⟨1⟩], none⟩]

/-- The execution records `debug_trace_call_many` produces on `bundles2W`
under `depsW` with `optsCx`. -/
def recs2W : List (ExecRecordM Nat) :=
  [⟨0, 0, some 42, none, beW⟩, ⟨1, 0, none, none, ⟨101, 1012, 0⟩⟩]

/-- The execution records of a single-bundle single-call run under `depsW`. -/
def recsW1 : List (ExecRecordM Nat) := [⟨0, 0, some 42, none, beW⟩]

/-- The raw 20-byte zero address. -/
def zeros20 : List Nat := List.replicate 20 0

/-- A concrete execution cache holding only the zero address (no storage). -/
def cacheCx : List (List Nat × DbAccountM) := [(zeros20, ⟨some ⟨0, []⟩, false⟩)]

/-- A concrete execution cache with one account and one storage slot. -/
def cacheW8 : List (List Nat × DbAccountM) :=
  [(zeros20, ⟨some ⟨0, [(0, 7)]⟩, false⟩)]

/-- A concrete trie witness generator. -/
def witnessOfW : HashedPostStateM → Nat := fun _ => 0

/-- The preimage map accumulated over `cacheW8`. -/
def ksW8 : List (List Nat × List Nat) :=
  (witness_scan_accounts true ⟨[], []⟩ [] cacheW8).2

/-- The preimage map accumulated over `cacheCx`. -/
def ksCx : List (List Nat × List Nat) :=
  (witness_scan_accounts true ⟨[], []⟩ [] cacheCx).2

/-- The observable behaviour of `state_overrides.take()` threading along a
run of execution records: the first executed transaction receives the current
slot contents, every later one receives `None`. -/
def SlotThread {α : Type} (so : Option Nat) : List (ExecRecordM α) → Prop
  | [] => True
  | r :: rest => r.stateOverridesArg = so ∧ SlotThread none rest

/-! ## Theorems -/

/-- Specification of the `trace_block` replay loop: when the loop succeeds,
it produces one step per transaction; the delta of step `i` is committed
exactly when a transaction follows, and the overlay step `i` executed on is
the sequential application of the first `i` transactions.  (Shared helper
for the claims about the replay kernel.) -/
theorem trace_block_go_spec {α : Type} (inspect : DBM α → EnvM → InspectResM α)
    (txEnvOf : RecoveredTxM → Nat) (opts : TracingOptionsM) (cfg : CfgM)
    (blockEnv : BlockEnvM) (blockHash : Option Nat) :
    ∀ (txs : List RecoveredTxM) (index : Nat) (db : DBM α)
      (steps : List (ReplayStepM α)),
      trace_block_go inspect txEnvOf opts cfg blockEnv blockHash index db txs
        = .ok steps →
      steps.length = txs.length ∧
      ∀ i (h : i < steps.length),
        ((steps.get ⟨i, h⟩).committed = true ↔ i + 1 < txs.length) ∧
        (steps.get ⟨i, h⟩).seenDb =
          seq_replay_state inspect txEnvOf opts cfg blockEnv blockHash index db
            (txs.take i) := by
  intro txs
  induction txs with
  | nil =>
    intro index db steps h
    simp only [trace_block_go] at h
    cases h
    exact ⟨rfl, fun i hi => absurd hi (by simp)⟩
  | cons tx rest ih =>
    intro index db steps h
    simp only [trace_block_go] at h
    cases htx : trace_transaction inspect opts
        (mkEnvWithHandlerCfg cfg blockEnv (txEnvOf tx)) db
        (some ⟨blockHash, some tx.hash, some index⟩) with
    | error e => rw [htx] at h; simp at h
    | ok p =>
      obtain ⟨result, stateChanges⟩ := p
      rw [htx] at h
      simp only at h
      cases hrec : trace_block_go inspect txEnvOf opts cfg blockEnv blockHash
          (index + 1)
          (if !rest.isEmpty then dbCommit db stateChanges else db) rest with
      | error e => rw [hrec] at h; simp at h
      | ok steps' =>
        rw [hrec] at h
        simp only at h
        cases h
        obtain ⟨ihlen, ihstep⟩ := ih (index + 1) _ steps' hrec
        refine ⟨by simp [ihlen], ?_⟩
        intro i hi
        match i with
        | 0 =>
          refine ⟨?_, rfl⟩
          cases rest <;> simp
        | (i' + 1) =>
          have hi' : i' < steps'.length := by
            simp only [List.length_cons] at hi; omega
          have h2 := ihstep i' hi'
          have hget : (⟨db, !rest.isEmpty, ⟨result, some tx.hash⟩⟩ :: steps').get
              ⟨i' + 1, hi⟩ = steps'.get ⟨i', hi'⟩ := rfl
          rw [hget]
          have hrestne : rest ≠ [] := by
            intro hr
            rw [hr] at ihlen
            simp only [List.length_nil] at ihlen
            omega
          have hEmpty : rest.isEmpty = false := by
            cases rest with
            | nil => exact absurd rfl hrestne
            | cons r rs => rfl
          refine ⟨?_, ?_⟩
          · rw [h2.1]
            simp only [List.length_cons]
            omega
          · rw [h2.2]
            have htake : (tx :: rest).take (i' + 1) = tx :: rest.take i' := rfl
            rw [htake]
            simp only [seq_replay_state]
            rw [htx]
            simp [hEmpty]

/-- **C1.** In block replay (`trace_block`), the state delta of every
transaction is committed into the cache overlay iff another transaction
follows it (so the last delta is never committed), and the overlay visible to
the `i`-th transaction is exactly the sequential application of the first `i`
transactions on top of the parent-state view. -/
theorem trace_block_commit_iff_next {α : Type}
    (inspect : DBM α → EnvM → InspectResM α) (txEnvOf : RecoveredTxM → Nat)
    (stateFor : BlockIdM → DBM α) (at_ : BlockIdM)
    (txs : List RecoveredTxM) (cfg : CfgM) (blockEnv : BlockEnvM)
    (opts : TracingOptionsM) (steps : List (ReplayStepM α))
    (hrun : (trace_block inspect txEnvOf stateFor at_ txs cfg blockEnv
      opts).outcome = .ok steps) :
    steps.length = txs.length ∧
    ∀ i (h : i < steps.length),
      ((steps.get ⟨i, h⟩).committed = true ↔ i + 1 < txs.length) ∧
      (steps.get ⟨i, h⟩).seenDb =
        seq_replay_state inspect txEnvOf opts cfg blockEnv at_.asBlockHash 0
          (stateFor at_) (txs.take i) := by
  cases txs with
  | nil =>
    simp only [trace_block, List.isEmpty_nil, if_true] at hrun
    cases hrun
    exact ⟨rfl, fun i hi => absurd hi (by simp)⟩
  | cons tx rest =>
    simp only [trace_block, List.isEmpty_cons, Bool.false_eq_true, if_false]
      at hrun
    exact trace_block_go_spec inspect txEnvOf opts cfg blockEnv at_.asBlockHash
      (tx :: rest) 0 (stateFor at_) steps hrun

/-- Witness for C1 at a concrete two-transaction block. -/
theorem trace_block_commit_iff_next_witness :
    (trace_block inspectW txEnvW stateForW (.hash 3) txsW cfgW beW
      defaultTracingOptions).outcome = .ok stepsW ∧
    stepsW.length = txsW.length := by
  have h := trace_block_commit_iff_next inspectW txEnvW stateForW (.hash 3)
    txsW cfgW beW defaultTracingOptions stepsW (by decide)
  exact ⟨by decide, h.1⟩

/-- **C6.** `trace_block` on an empty transaction list returns the empty
result before any parent-state view is acquired (the worker closure is never
dispatched). -/
theorem trace_block_empty_txs {α : Type}
    (inspect : DBM α → EnvM → InspectResM α) (txEnvOf : RecoveredTxM → Nat)
    (stateFor : BlockIdM → DBM α) (at_ : BlockIdM) (cfg : CfgM)
    (blockEnv : BlockEnvM) (opts : TracingOptionsM) :
    trace_block inspect txEnvOf stateFor at_ [] cfg blockEnv opts
      = ⟨false, .ok []⟩ := rfl

/-- **C5 (the code at the failing input).** On the transaction-trace path —
`trace_transaction`, shared by block replay and `debug_traceTransaction` —
selecting the built-in FlatCall tracer is rejected as
`Unsupported("Flatcall tracer is not supported yet")`, for every execution
semantics, config, environment and overlay.  This contradicts the claim that
the FlatCall tracer is available on this path; the implementation the claim
describes sits (ill-formed) in `debug_trace_call` instead. -/
theorem flatcall_unsupported_on_transaction_path {α : Type}
    (inspect : DBM α → EnvM → InspectResM α) (config : Nat)
    (tracerConfig : TracerConfigM) (env : EnvM) (db : DBM α)
    (ctx : Option TxContextM) :
    trace_transaction inspect ⟨config, some (.builtIn .flatCall), tracerConfig⟩
      env db ctx
      = .error (.unsupported "Flatcall tracer is not supported yet") := rfl

/-- **C10.** Under the Noop built-in tracer, `trace_transaction` performs no
EVM execution (the result is `(NoopFrame, ∅)` for *every* execution semantics
`inspect`) and the returned delta is empty; consequently, during block replay
under the Noop tracer the overlay seen by every transaction is the unchanged
initial overlay — no state changes are ever committed between transactions. -/
theorem noop_tracer_no_exec_empty_delta {α : Type}
    (inspect : DBM α → EnvM → InspectResM α) (opts : TracingOptionsM)
    (hnoop : opts.tracer = some (.builtIn .noop)) :
    (∀ env db ctx, trace_transaction inspect opts env db ctx
      = .ok (.noopFrame, [])) ∧
    (∀ (txEnvOf : RecoveredTxM → Nat) (cfg : CfgM) (blockEnv : BlockEnvM)
      (blockHash : Option Nat) (index : Nat) (db : DBM α)
      (txs : List RecoveredTxM) (steps : List (ReplayStepM α)),
      trace_block_go inspect txEnvOf opts cfg blockEnv blockHash index db txs
        = .ok steps →
      ∀ i (h : i < steps.length), (steps.get ⟨i, h⟩).seenDb = db) := by
  have hone : ∀ env db ctx, trace_transaction inspect opts env db ctx
      = .ok (.noopFrame, ([] : EvmStateM α)) := by
    intro env db ctx
    simp [trace_transaction, hnoop]
  refine ⟨hone, ?_⟩
  intro txEnvOf cfg blockEnv blockHash index db txs
  induction txs generalizing index db with
  | nil =>
    intro steps h
    simp only [trace_block_go] at h
    cases h
    intro i hi
    exact absurd hi (by simp)
  | cons tx rest ih =>
    intro steps h
    simp only [trace_block_go] at h
    rw [hone] at h
    simp only at h
    have hdb : (if !rest.isEmpty then dbCommit db ([] : EvmStateM α) else db)
        = db := by
      cases rest <;> rfl
    rw [hdb] at h
    cases hrec : trace_block_go inspect txEnvOf opts cfg blockEnv blockHash
        (index + 1) db rest with
    | error e => rw [hrec] at h; simp at h
    | ok steps' =>
      rw [hrec] at h
      simp only at h
      cases h
      intro i hi
      match i with
      | 0 => rfl
      | (i' + 1) =>
        have hi' : i' < steps'.length := by
          simp only [List.length_cons] at hi; omega
        exact ih (index + 1) db steps' hrec i' hi'

/-- Witness for C10 at a concrete noop-traced block: the execution semantics
`inspectW` would touch account 1, yet the noop replay sees untouched state. -/
theorem noop_tracer_no_exec_empty_delta_witness :
    trace_transaction inspectW
      ⟨0, some (.builtIn .noop), ⟨none, none, none, none⟩⟩ ⟨0, 0, beW, 0⟩ []
      none = .ok (.noopFrame, []) := by
  have h := noop_tracer_no_exec_empty_delta inspectW
    ⟨0, some (.builtIn .noop), ⟨none, none, none, none⟩⟩ rfl
  exact h.1 ⟨0, 0, beW, 0⟩ [] none

/-- `recoverAll` succeeds exactly with the pointwise recoveries (helper). -/
theorem recoverAll_ok_forall2 (recover : SignedTxM → Option RecoveredTxM) :
    ∀ (body : List SignedTxM) (txs : List RecoveredTxM),
      recoverAll recover body = .ok txs →
      List.Forall₂ (fun tx r => recover tx = some r) body txs := by
  intro body
  induction body with
  | nil =>
    intro txs h
    simp only [recoverAll] at h
    cases h
    exact .nil
  | cons tx rest ih =>
    intro txs h
    simp only [recoverAll] at h
    cases hrec : recover tx with
    | none => rw [hrec] at h; simp at h
    | some r =>
      rw [hrec] at h
      cases hrest : recoverAll recover rest with
      | error e => rw [hrest] at h; simp [Except.map] at h
      | ok rs =>
        rw [hrest] at h
        simp only [Except.map] at h
        cases h
        exact .cons hrec (ih rs hrest)

/-- `recoverAll` fails with `InvalidTransactionSignature` as soon as any
transaction of the body fails to recover (helper). -/
theorem recoverAll_error_of_failure (recover : SignedTxM → Option RecoveredTxM) :
    ∀ (body : List SignedTxM) (tx : SignedTxM), tx ∈ body → recover tx = none →
      recoverAll recover body = .error .invalidTransactionSignature := by
  intro body
  induction body with
  | nil => intro tx h; cases h
  | cons t rest ih =>
    intro tx hmem hnone
    simp only [recoverAll]
    cases hrec : recover t with
    | none => rfl
    | some r =>
      have hrest : tx ∈ rest := by
        cases hmem with
        | head => rw [hnone] at hrec; cases hrec
        | tail _ h => exact h
      rw [ih tx hrest hnone]
      rfl

/-- **C2.** In `debug_trace_raw_block`, for every decoded block: when
Homestead is active at the block number every signer is recovered with the
strict rule (`into_ecrecovered`), otherwise with the relaxed rule
(`into_ecrecovered_unchecked`); and if any recovery under the active rule
fails, the entire request fails with `InvalidTransactionSignature`. -/
theorem raw_block_recovery_rule {α : Type}
    (decodeBlock : List Nat → Option RawBlockM)
    (envForRaw : RawBlockM → CfgM × BlockEnvM)
    (isHomesteadActiveAtBlock : Nat → Bool)
    (intoEcrecovered intoEcrecoveredUnchecked : SignedTxM → Option RecoveredTxM)
    (inspect : DBM α → EnvM → InspectResM α) (txEnvOf : RecoveredTxM → Nat)
    (stateFor : BlockIdM → DBM α) (rlpBlock : List Nat) (opts : TracingOptionsM)
    (block : RawBlockM) (hdec : decodeBlock rlpBlock = some block) :
    (isHomesteadActiveAtBlock block.number = true →
      (∀ tx ∈ block.body, intoEcrecovered tx = none →
        debug_trace_raw_block decodeBlock envForRaw isHomesteadActiveAtBlock
          intoEcrecovered intoEcrecoveredUnchecked inspect txEnvOf stateFor
          rlpBlock opts = .error .invalidTransactionSignature) ∧
      (∀ txs, recoverAll intoEcrecovered block.body = .ok txs →
        List.Forall₂ (fun tx r => intoEcrecovered tx = some r) block.body txs ∧
        debug_trace_raw_block decodeBlock envForRaw isHomesteadActiveAtBlock
          intoEcrecovered intoEcrecoveredUnchecked inspect txEnvOf stateFor
          rlpBlock opts
          = .ok (trace_block inspect txEnvOf stateFor (.hash block.parentHash)
              txs (envForRaw block).1 (envForRaw block).2 opts))) ∧
    (isHomesteadActiveAtBlock block.number = false →
      (∀ tx ∈ block.body, intoEcrecoveredUnchecked tx = none →
        debug_trace_raw_block decodeBlock envForRaw isHomesteadActiveAtBlock
          intoEcrecovered intoEcrecoveredUnchecked inspect txEnvOf stateFor
          rlpBlock opts = .error .invalidTransactionSignature) ∧
      (∀ txs, recoverAll intoEcrecoveredUnchecked block.body = .ok txs →
        List.Forall₂ (fun tx r => intoEcrecoveredUnchecked tx = some r)
          block.body txs ∧
        debug_trace_raw_block decodeBlock envForRaw isHomesteadActiveAtBlock
          intoEcrecovered intoEcrecoveredUnchecked inspect txEnvOf stateFor
          rlpBlock opts
          = .ok (trace_block inspect txEnvOf stateFor (.hash block.parentHash)
              txs (envForRaw block).1 (envForRaw block).2 opts))) := by
  constructor
  · intro hfork
    constructor
    · intro tx hmem hnone
      have herr := recoverAll_error_of_failure intoEcrecovered block.body tx
        hmem hnone
      simp [debug_trace_raw_block, hdec, hfork, herr]
    · intro txs htxs
      refine ⟨recoverAll_ok_forall2 _ _ _ htxs, ?_⟩
      simp [debug_trace_raw_block, hdec, hfork, htxs]
  · intro hfork
    constructor
    · intro tx hmem hnone
      have herr := recoverAll_error_of_failure intoEcrecoveredUnchecked
        block.body tx hmem hnone
      simp [debug_trace_raw_block, hdec, hfork, herr]
    · intro txs htxs
      refine ⟨recoverAll_ok_forall2 _ _ _ htxs, ?_⟩
      simp [debug_trace_raw_block, hdec, hfork, htxs]

/-- Witness for C2 at a concrete one-transaction raw block under an active
Homestead fork. -/
theorem raw_block_recovery_rule_witness :
    List.Forall₂ (fun tx r => strictW tx = some r) blockW.body [⟨21, 1⟩] ∧
    debug_trace_raw_block decodeW envForRawW homesteadW strictW uncheckedW
      inspectW txEnvW stateForW [9] defaultTracingOptions
      = .ok (trace_block inspectW txEnvW stateForW (.hash 77) [⟨21, 1⟩]
          (envForRawW blockW).1 (envForRawW blockW).2 defaultTracingOptions) := by
  have h := raw_block_recovery_rule decodeW envForRawW homesteadW strictW
    uncheckedW inspectW txEnvW stateForW [9] defaultTracingOptions blockW rfl
  exact (h.1 rfl).2 [⟨21, 1⟩] (by decide)

/-- **C9 (counterexample).** A permit-acquisition failure from a torn-down
admission gate does *not* make `debug_traceBlock` return an `Internal` error:
the handler discards the permit `Result` and proceeds with the trace — here
it completes successfully despite `permit = Err(AcquireError)`. -/
theorem permit_failure_not_internal_cx :
    debug_trace_block_rpc decodeEmptyW envForRawW homesteadW strictW uncheckedW
      inspectW txEnvW stateForW (.error .closed) [0] none
      = .ok ⟨false, .ok []⟩ ∧
    debug_trace_block_rpc decodeEmptyW envForRawW homesteadW strictW uncheckedW
      inspectW txEnvW stateForW (.error .closed) [0] none
      ≠ .error .internal := by
  exact ⟨by decide, by decide⟩

/-- **C9 (amended).** The blocking trace handlers bind the permit `Result`
without inspecting it: the outcome of `debug_traceBlock` is entirely
independent of whether permit acquisition succeeded or failed — the call
proceeds with the trace either way (rather than mapping the failure to
`Internal`). -/
theorem permit_result_ignored {α : Type}
    (decodeBlock : List Nat → Option RawBlockM)
    (envForRaw : RawBlockM → CfgM × BlockEnvM)
    (isHomesteadActiveAtBlock : Nat → Bool)
    (intoEcrecovered intoEcrecoveredUnchecked : SignedTxM → Option RecoveredTxM)
    (inspect : DBM α → EnvM → InspectResM α) (txEnvOf : RecoveredTxM → Nat)
    (stateFor : BlockIdM → DBM α) (rlpBlock : List Nat)
    (opts : Option TracingOptionsM)
    (permit permit' : Except AcquireErrorM Unit) :
    debug_trace_block_rpc decodeBlock envForRaw isHomesteadActiveAtBlock
      intoEcrecovered intoEcrecoveredUnchecked inspect txEnvOf stateFor permit
      rlpBlock opts
      = debug_trace_block_rpc decodeBlock envForRaw isHomesteadActiveAtBlock
          intoEcrecovered intoEcrecoveredUnchecked inspect txEnvOf stateFor
          permit' rlpBlock opts := rfl

/-- `SlotThread` rephrased positionally (helper). -/
theorem slotThread_get {α : Type} :
    ∀ (recs : List (ExecRecordM α)) (so : Option Nat), SlotThread so recs →
      ∀ i (h : i < recs.length),
        (recs.get ⟨i, h⟩).stateOverridesArg = if i = 0 then so else none := by
  intro recs
  induction recs with
  | nil => intro so _ i hi; exact absurd hi (by simp)
  | cons r rest ih =>
    intro so hp i hi
    match i with
    | 0 => exact hp.1
    | (i' + 1) =>
      have hi' : i' < rest.length := by
        simp only [List.length_cons] at hi; omega
      have := ih none hp.2 i' hi'
      rw [show ((r :: rest).get ⟨i' + 1, hi⟩) = rest.get ⟨i', hi'⟩ from rfl,
        this]
      cases i' <;> rfl

/-- `SlotThread` composes over append when the slot is passed along
correctly (helper). -/
theorem slotThread_append {α : Type} :
    ∀ (l1 : List (ExecRecordM α)) (l2 : List (ExecRecordM α))
      (so so' : Option Nat),
      SlotThread so l1 → SlotThread so' l2 →
      (l1.isEmpty = true → so' = so) → (l1.isEmpty = false → so' = none) →
      SlotThread so (l1 ++ l2) := by
  intro l1
  induction l1 with
  | nil =>
    intro l2 so so' _ h2 he _
    rw [he rfl] at h2
    exact h2
  | cons r t ih =>
    intro l2 so so' h1 h2 _ hne
    exact ⟨h1.1, ih l2 none so' h1.2 h2 (fun _ => hne rfl) (fun _ => hne rfl)⟩

/-- Specification of the inner transaction loop of one bundle: one record per
call, the override slot is handed to the first call only and is left empty
afterwards, and every record carries this bundle's index and block
environment (helper). -/
theorem run_bundle_txs_spec {α : Type}
    (prepareCallEnv : CfgM → BlockEnvM → CallReqM → Nat → DBM α →
      Option Nat × Option Nat → Except EthApiErrorM (EnvM × DBM α))
    (inspect : DBM α → EnvM → InspectResM α) (tracingOptions : TracingOptionsM)
    (cfg : CfgM) (gasLimit : Nat) (blockEnv : BlockEnvM)
    (blockOverrides : Option Nat) (bundleIdx : Nat) (moreBundles : Bool) :
    ∀ (txs : List CallReqM) (txIdx : Nat) (so : Option Nat) (db : DBM α)
      (slotOut : Option Nat) (dbOut : DBM α) (recs : List (ExecRecordM α))
      (traces : List GethTraceM),
      run_bundle_txs prepareCallEnv inspect tracingOptions cfg gasLimit
        blockEnv blockOverrides bundleIdx moreBundles txIdx so db txs
        = .ok (slotOut, dbOut, recs, traces) →
      recs.length = txs.length ∧
      SlotThread so recs ∧
      (recs.isEmpty = true → slotOut = so) ∧
      (recs.isEmpty = false → slotOut = none) ∧
      (∀ r ∈ recs, r.blockEnvArg = blockEnv ∧ r.bundleIdx = bundleIdx) := by
  intro txs
  induction txs with
  | nil =>
    intro txIdx so db slotOut dbOut recs traces h
    simp only [run_bundle_txs] at h
    cases h
    refine ⟨rfl, ?_, fun _ => rfl, fun hf => ?_, fun r hr => ?_⟩
    · trivial
    · simp at hf
    · simp at hr
  | cons tx rest ih =>
    intro txIdx so db slotOut dbOut recs traces h
    simp only [run_bundle_txs] at h
    cases hpce : prepareCallEnv cfg blockEnv tx gasLimit db
        (so, blockOverrides) with
    | error e => rw [hpce] at h; simp at h
    | ok p =>
      obtain ⟨env, db1⟩ := p
      rw [hpce] at h
      simp only at h
      cases htr : trace_transaction inspect tracingOptions env db1 none with
      | error e => rw [htr] at h; simp at h
      | ok q =>
        obtain ⟨trace, state⟩ := q
        rw [htr] at h
        simp only at h
        cases hrec : run_bundle_txs prepareCallEnv inspect tracingOptions cfg
            gasLimit blockEnv blockOverrides bundleIdx moreBundles (txIdx + 1)
            none
            (if (!rest.isEmpty || moreBundles) = true then dbCommit db1 state
              else db1) rest with
        | error e => rw [hrec] at h; simp at h
        | ok out =>
          obtain ⟨slotOut', dbOut', recs', traces'⟩ := out
          rw [hrec] at h
          simp only at h
          cases h
          obtain ⟨ihlen, ihthread, ihet, ihef, ihenv⟩ :=
            ih (txIdx + 1) none _ _ _ _ _ hrec
          refine ⟨by simp [ihlen], ?_, fun hf => ?_, fun _ => ?_, ?_⟩
          · exact ⟨rfl, ihthread⟩
          · simp at hf
          · cases hE : recs'.isEmpty with
            | true => exact ihet hE
            | false => exact ihef hE
          · intro r hr
            cases hr with
            | head => exact ⟨rfl, rfl⟩
            | tail _ hr' => exact ihenv r hr'

/-- Specification of the outer bundle loop: the override slot is consumed by
the first executed transaction across all bundles, and the `k`-th traced
bundle observes `block_env.number` advanced by `k` and `block_env.timestamp`
advanced by `12 k` (wrapping) relative to the base environment (helper). -/
theorem run_bundles_spec {α : Type}
    (prepareCallEnv : CfgM → BlockEnvM → CallReqM → Nat → DBM α →
      Option Nat × Option Nat → Except EthApiErrorM (EnvM × DBM α))
    (inspect : DBM α → EnvM → InspectResM α) (tracingOptions : TracingOptionsM)
    (cfg : CfgM) (gasLimit : Nat) :
    ∀ (bundles : List BundleM) (bundleIdx : Nat) (blockEnv : BlockEnvM)
      (so : Option Nat) (db : DBM α) (recs : List (ExecRecordM α))
      (traces : List (List GethTraceM)),
      run_bundles prepareCallEnv inspect tracingOptions cfg gasLimit bundleIdx
        blockEnv so db bundles = .ok (recs, traces) →
      SlotThread so recs ∧
      (blockEnv.number < U256MOD → blockEnv.timestamp < U256MOD →
        ∀ r ∈ recs, ∃ k, r.bundleIdx = bundleIdx + k ∧
          r.blockEnvArg.number = (blockEnv.number + k) % U256MOD ∧
          r.blockEnvArg.timestamp = (blockEnv.timestamp + 12 * k) % U256MOD) := by
  intro bundles
  induction bundles with
  | nil =>
    intro bundleIdx blockEnv so db recs traces h
    simp only [run_bundles] at h
    cases h
    refine ⟨?_, fun _ _ r hr => ?_⟩
    · trivial
    · simp at hr
  | cons bundle rest ih =>
    intro bundleIdx blockEnv so db recs traces h
    simp only [run_bundles] at h
    cases hinner : run_bundle_txs prepareCallEnv inspect tracingOptions cfg
        gasLimit blockEnv bundle.blockOverride bundleIdx (!rest.isEmpty) 0 so
        db bundle.transactions with
    | error e => rw [hinner] at h; simp at h
    | ok out =>
      obtain ⟨slotOut, dbOut, recsB, tracesB⟩ := out
      rw [hinner] at h
      simp only at h
      cases houter : run_bundles prepareCallEnv inspect tracingOptions cfg
          gasLimit (bundleIdx + 1)
          ⟨(blockEnv.number + 1) % U256MOD, (blockEnv.timestamp + 12) % U256MOD,
            blockEnv.rest⟩ slotOut dbOut rest with
      | error e => rw [houter] at h; simp at h
      | ok out' =>
        obtain ⟨recs', traces'⟩ := out'
        rw [houter] at h
        simp only at h
        cases h
        obtain ⟨_, bthread, bet, bef, benv⟩ :=
          run_bundle_txs_spec prepareCallEnv inspect tracingOptions cfg
            gasLimit blockEnv bundle.blockOverride bundleIdx (!rest.isEmpty)
            bundle.transactions 0 so db _ _ _ _ hinner
        obtain ⟨ihthread, ihtime⟩ := ih (bundleIdx + 1) _ slotOut dbOut recs'
          traces' houter
        refine ⟨slotThread_append recsB recs' so slotOut bthread ihthread bet
          bef, ?_⟩
        intro hn ht r hr
        have hM : 0 < U256MOD := by norm_num [U256MOD]
        rcases List.mem_append.mp hr with hrB | hrR
        · obtain ⟨hbe, hbi⟩ := benv r hrB
          refine ⟨0, by omega, ?_, ?_⟩
          · rw [hbe, Nat.add_zero]
            exact (Nat.mod_eq_of_lt hn).symm
          · rw [hbe, Nat.mul_zero, Nat.add_zero]
            exact (Nat.mod_eq_of_lt ht).symm
        · obtain ⟨k', hbi, hnum, hts⟩ := ihtime (Nat.mod_lt _ hM)
            (Nat.mod_lt _ hM) r hrR
          refine ⟨k' + 1, by omega, ?_, ?_⟩
          · rw [hnum]
            simp only [Nat.mod_add_mod]
            congr 1
            omega
          · rw [hts]
            simp only [Nat.mod_add_mod]
            congr 1
            omega

/-- A successful `debug_trace_call_many` is a successful `run_bundles` over
the resolved environment and some base overlay (helper). -/
theorem debug_trace_call_many_run {α : Type} (deps : CallManyDepsM α)
    (bundles : List BundleM) (stateContext : Option StateContextM)
    (opts : Option CallOptsM) (recs : List (ExecRecordM α))
    (traces : List (List GethTraceM))
    (hrun : (debug_trace_call_many deps bundles stateContext opts).result
      = .ok (recs, traces)) :
    ∃ cfg blockEnv db1,
      deps.evmEnvAt ((stateContext.getD defaultStateContext).blockNumber.getD
        .latest) = some (cfg, blockEnv) ∧
      run_bundles deps.prepareCallEnv deps.inspect
        (opts.getD defaultCallOpts).tracingOptions cfg deps.callGasLimit 0
        blockEnv (opts.getD defaultCallOpts).stateOverrides db1 bundles
        = .ok (recs, traces) := by
  cases bundles with
  | nil => simp [debug_trace_call_many] at hrun
  | cons b bs =>
    simp only [debug_trace_call_many, List.isEmpty_cons, Bool.false_eq_true,
      if_false] at hrun
    split at hrun
    next cfg blockEnv block heqEnv heqBlk =>
      split at hrun
      next e heqPre => simp at hrun
      next db1 heqPre =>
        exact ⟨cfg, blockEnv, db1, heqEnv, hrun⟩
    next h1 => simp at hrun

/-- **C7.** `debug_trace_call_many` with an empty bundle list fails with
`InvalidParams("bundles are empty.")` before resolving any block or
acquiring any state. -/
theorem call_many_empty_bundles {α : Type} (deps : CallManyDepsM α)
    (stateContext : Option StateContextM) (opts : Option CallOptsM) :
    debug_trace_call_many deps [] stateContext opts
      = ⟨false, .error (.invalidParams "bundles are empty.")⟩ := rfl

/-- **C3 (counterexample).** With a first bundle that contains no
transactions, the supplied state overrides (`some 42`) are handed to the
first transaction of the *second* bundle (`bundleIdx = 1`), contradicting the
claim that they are applied to the first transaction of the first bundle and
never to a transaction of any later bundle. -/
theorem call_many_state_override_second_bundle_cx :
    (debug_trace_call_many depsW [⟨[], none⟩, ⟨[⟨0⟩], none⟩] none
      (some optsCx)).result
      = .ok ([⟨1, 0, some 42, none, ⟨101, 1012, 0⟩⟩],
          [[], [.fourByteFrame 9]]) := by decide

/-- **C3 (amended).** In `debug_trace_call_many` the state overrides are
consumed at most once: the first transaction *executed* (the first
transaction of the first non-empty bundle) receives the supplied override
option, and every later transaction of every bundle receives `None`. -/
theorem call_many_state_override_single_shot {α : Type}
    (deps : CallManyDepsM α) (bundles : List BundleM)
    (stateContext : Option StateContextM) (opts : Option CallOptsM)
    (recs : List (ExecRecordM α)) (traces : List (List GethTraceM))
    (hrun : (debug_trace_call_many deps bundles stateContext opts).result
      = .ok (recs, traces)) :
    ∀ i (h : i < recs.length),
      (recs.get ⟨i, h⟩).stateOverridesArg
        = if i = 0 then (opts.getD defaultCallOpts).stateOverrides else none := by
  obtain ⟨cfg, blockEnv, db1, _, hrb⟩ :=
    debug_trace_call_many_run deps bundles stateContext opts recs traces hrun
  have hst := (run_bundles_spec deps.prepareCallEnv deps.inspect
    (opts.getD defaultCallOpts).tracingOptions cfg deps.callGasLimit bundles 0
    blockEnv (opts.getD defaultCallOpts).stateOverrides db1 recs traces hrb).1
  exact slotThread_get recs _ hst

/-- Witness for the amended C3 at a single-bundle run. -/
theorem call_many_state_override_single_shot_witness :
    (recsW1.get ⟨0, by decide⟩).stateOverridesArg = some 42 := by
  have h := call_many_state_override_single_shot depsW [⟨[⟨0⟩], none⟩] none
    (some optsCx) recsW1 [[.fourByteFrame 9]] (by decide)
  exact h 0 (by decide)

/-- **C4.** In `debug_trace_call_many`, any two records from adjacent bundles
observe block environments whose `number` differs by exactly 1 and whose
`timestamp` differs by exactly 12 (absent 256-bit wrap-around of the
counters). -/
theorem call_many_bundle_time_advance {α : Type} (deps : CallManyDepsM α)
    (bundles : List BundleM) (stateContext : Option StateContextM)
    (opts : Option CallOptsM) (recs : List (ExecRecordM α))
    (traces : List (List GethTraceM)) (cfg : CfgM) (blockEnv : BlockEnvM)
    (hres : deps.evmEnvAt ((stateContext.getD defaultStateContext).blockNumber.getD
      .latest) = some (cfg, blockEnv))
    (hrun : (debug_trace_call_many deps bundles stateContext opts).result
      = .ok (recs, traces))
    (r1 r2 : ExecRecordM α) (h1 : r1 ∈ recs) (h2 : r2 ∈ recs)
    (hadj : r2.bundleIdx = r1.bundleIdx + 1)
    (hn : blockEnv.number + r2.bundleIdx < U256MOD)
    (ht : blockEnv.timestamp + 12 * r2.bundleIdx < U256MOD) :
    r2.blockEnvArg.number = r1.blockEnvArg.number + 1 ∧
    r2.blockEnvArg.timestamp = r1.blockEnvArg.timestamp + 12 := by
  obtain ⟨cfg', blockEnv', db1, hEnv', hrb⟩ :=
    debug_trace_call_many_run deps bundles stateContext opts recs traces hrun
  rw [hres] at hEnv'
  injection hEnv' with hpair
  cases hpair
  have htime := (run_bundles_spec deps.prepareCallEnv deps.inspect
    (opts.getD defaultCallOpts).tracingOptions cfg deps.callGasLimit bundles 0
    blockEnv (opts.getD defaultCallOpts).stateOverrides db1 recs traces
    hrb).2 (by omega) (by omega)
  obtain ⟨k1, hbi1, hnum1, hts1⟩ := htime r1 h1
  obtain ⟨k2, hbi2, hnum2, hts2⟩ := htime r2 h2
  have e2n : r2.blockEnvArg.number = blockEnv.number + k2 := by
    rw [hnum2]; exact Nat.mod_eq_of_lt (by omega)
  have e1n : r1.blockEnvArg.number = blockEnv.number + k1 := by
    rw [hnum1]; exact Nat.mod_eq_of_lt (by omega)
  have e2t : r2.blockEnvArg.timestamp = blockEnv.timestamp + 12 * k2 := by
    rw [hts2]; exact Nat.mod_eq_of_lt (by omega)
  have e1t : r1.blockEnvArg.timestamp = blockEnv.timestamp + 12 * k1 := by
    rw [hts1]; exact Nat.mod_eq_of_lt (by omega)
  constructor <;> omega

/-- Witness for C4 at a concrete two-bundle run. -/
theorem call_many_bundle_time_advance_witness :
    (⟨1, 0, none, none, ⟨101, 1012, 0⟩⟩ : ExecRecordM Nat).blockEnvArg.number
      = (⟨0, 0, some 42, none, beW⟩ : ExecRecordM Nat).blockEnvArg.number + 1 ∧
    (⟨1, 0, none, none, ⟨101, 1012, 0⟩⟩ : ExecRecordM Nat).blockEnvArg.timestamp
      = (⟨0, 0, some 42, none, beW⟩ : ExecRecordM Nat).blockEnvArg.timestamp
        + 12 := by
  have h := call_many_bundle_time_advance depsW bundles2W none (some optsCx)
    recs2W [[.fourByteFrame 9], [.fourByteFrame 9]] cfgW beW rfl (by decide)
    ⟨0, 0, some 42, none, beW⟩ ⟨1, 0, none, none, ⟨101, 1012, 0⟩⟩
    (by decide) (by decide) (by decide) (by decide) (by decide)
  exact h

/-- Membership through a map insert (helper). -/
theorem mapInsertB_mem (m : List (List Nat × List Nat)) (k v : List Nat)
    (kv : List Nat × List Nat) :
    kv ∈ mapInsertB m k v → kv = (k, v) ∨ kv ∈ m := by
  intro h
  rcases List.mem_cons.mp h with h1 | h2
  · exact Or.inl h1
  · exact Or.inr (List.mem_filter.mp h2).1

/-- Every entry the storage sub-loop adds to the preimage map pairs the
keccak digest of the raw 32 slot bytes with their RLP encoding (helper). -/
theorem witness_scan_storage_mem (ip : Bool) :
    ∀ (storage : List (Nat × Nat)) (hsto : HashedStorageM)
      (pre : List (List Nat × List Nat)) (kv : List Nat × List Nat),
      kv ∈ (witness_scan_storage ip (hsto, pre) storage).2 →
      kv ∈ pre ∨ ∃ raw, kv.1 = keccak256 raw ∧ kv.2 = rlpBytes raw := by
  intro storage
  induction storage with
  | nil =>
    intro hsto pre kv h
    simp only [witness_scan_storage] at h
    exact Or.inl h
  | cons sv rest ih =>
    intro hsto pre kv h
    obtain ⟨slot, value⟩ := sv
    simp only [witness_scan_storage] at h
    rcases ih _ _ kv h with hpre | hP
    · cases hip : ip with
      | false =>
        rw [hip] at hpre
        simp only [Bool.false_eq_true, if_false] at hpre
        exact Or.inl hpre
      | true =>
        rw [hip] at hpre
        simp only [if_true] at hpre
        rcases mapInsertB_mem _ _ _ _ hpre with h1 | h2
        · exact Or.inr ⟨be32 slot, by rw [h1], by rw [h1]⟩
        · exact Or.inl h2
    · exact Or.inr hP

/-- Every entry the account loop adds to the preimage map pairs the keccak
digest of raw bytes (a 20-byte address or 32 slot bytes) with their RLP
encoding (helper). -/
theorem witness_scan_accounts_mem (ip : Bool) :
    ∀ (accounts : List (List Nat × DbAccountM)) (hs : HashedPostStateM)
      (pre : List (List Nat × List Nat)) (kv : List Nat × List Nat),
      kv ∈ (witness_scan_accounts ip hs pre accounts).2 →
      kv ∈ pre ∨ ∃ raw, kv.1 = keccak256 raw ∧ kv.2 = rlpBytes raw := by
  intro accounts
  induction accounts with
  | nil =>
    intro hs pre kv h
    simp only [witness_scan_accounts] at h
    exact Or.inl h
  | cons entry rest ih =>
    intro hs pre kv h
    obtain ⟨address, dbAccount⟩ := entry
    simp only [witness_scan_accounts] at h
    cases hacc : dbAccount.account with
    | none =>
      rw [hacc] at h
      simp only at h
      exact ih _ _ kv h
    | some plain =>
      rw [hacc] at h
      simp only at h
      rcases ih _ _ kv h with hpre2 | hP
      · rcases witness_scan_storage_mem ip plain.storage _ _ kv hpre2 with
          hpre1 | hP
        · cases hip : ip with
          | false =>
            rw [hip] at hpre1
            simp only [Bool.false_eq_true, if_false] at hpre1
            exact Or.inl hpre1
          | true =>
            rw [hip] at hpre1
            simp only [if_true] at hpre1
            rcases mapInsertB_mem _ _ _ _ hpre1 with h1 | h2
            · exact Or.inr ⟨address, by rw [h1], by rw [h1]⟩
            · exact Or.inl h2
        · exact Or.inr hP
      · exact Or.inr hP

/-- **C8 (counterexample).** For the zero address, the preimage-map entry of
`debug_execution_witness` keys `RLP(address)` under `keccak256(address)` —
the keccak of the *raw* 20 address bytes — and that key differs from
`keccak256(RLP(address))`, which the claim asserts the key to be. -/
theorem execution_witness_key_cx :
    (debug_execution_witness witnessOfW cacheCx true).keys
      = some [(keccak256 zeros20, rlpBytes zeros20)] ∧
    keccak256 zeros20 ≠ keccak256 (rlpBytes zeros20) := by
  exact ⟨rfl, by decide⟩

/-- **C8 (amended).** In `debug_execution_witness` with
`include_preimages = true`, every entry of the returned preimage map pairs
`keccak256(raw)` with `RLP(raw)`, where `raw` is the raw byte string (the
20-byte address, or the 32-byte slot) — the key is the keccak of the raw
bytes, not of their RLP encoding; with `include_preimages = false` the
preimage map is absent (`None`), not empty. -/
theorem execution_witness_preimage_keys (witnessOf : HashedPostStateM → Nat)
    (cacheAccounts : List (List Nat × DbAccountM)) (includePreimages : Bool) :
    (debug_execution_witness witnessOf cacheAccounts false).keys = none ∧
    (∀ ks, (debug_execution_witness witnessOf cacheAccounts
        includePreimages).keys = some ks →
      ∀ kv ∈ ks, ∃ raw, kv.1 = keccak256 raw ∧ kv.2 = rlpBytes raw) := by
  constructor
  · rfl
  · intro ks hks kv hkv
    cases hip : includePreimages with
    | false =>
      rw [hip] at hks
      simp only [debug_execution_witness, Bool.false_eq_true, if_false] at hks
      cases hks
    | true =>
      rw [hip] at hks
      simp only [debug_execution_witness, if_true, Option.some.injEq] at hks
      rw [← hks] at hkv
      rcases witness_scan_accounts_mem true cacheAccounts ⟨[], []⟩ [] kv hkv
        with h0 | hP
      · simp at h0
      · exact hP

/-- Witness for the amended C8: the zero-address cache yields the entry
`(keccak256(address), RLP(address))`, and requesting no preimages yields an
absent map. -/
theorem execution_witness_preimage_keys_witness :
    (debug_execution_witness witnessOfW cacheCx false).keys = none ∧
    (∃ raw, (keccak256 zeros20, rlpBytes zeros20).1 = keccak256 raw ∧
      (keccak256 zeros20, rlpBytes zeros20).2 = rlpBytes raw) := by
  have h := execution_witness_preimage_keys witnessOfW cacheCx true
  exact ⟨h.1, h.2 ksCx rfl (keccak256 zeros20, rlpBytes zeros20)
    (List.Mem.head _)⟩

end RethDebug
